import Mathlib

/-!
Shallow embedding of the slinker URL-shortening service: the `lib/db`
persistence layer, the `/api/shorten` route handlers (POST / GET / DELETE)
and the `[shortCode]` redirect page, with theorems checking the
specification's claims against this embedding.

JavaScript string primitives used by the sources (`trim`, `startsWith`,
truthiness of a string) are modelled on character lists so that every
definition evaluates inside the kernel.
-/

namespace Slinker

/-- JS `String.prototype.startsWith`: `p` is an initial segment of `s`. -/
def jsStartsWith (s p : String) : Bool :=
  p.toList.isPrefixOf s.toList

/-- JS `String.prototype.trim`: strip leading and trailing whitespace. -/
def jsTrim (s : String) : String :=
  ⟨((s.toList.dropWhile Char.isWhitespace).reverse.dropWhile Char.isWhitespace).reverse⟩

/-- A character allowed in a URL scheme after the leading letter
(WHATWG: ASCII alphanumeric, `+`, `-` or `.`). -/
def schemeChar (c : Char) : Bool :=
  c.isAlpha || c.isDigit || c == '+' || c == '-' || c == '.'

/-- Scan for the `:` that ends a URL scheme, over scheme characters. -/
def schemeScan : List Char → Bool
  | [] => false
  | c :: rest => if c == ':' then true else schemeChar c && schemeScan rest

/-- Does `new URL(url)` succeed?  The WHATWG parser requires an absolute
URL: an ASCII-letter-led scheme terminated by `:`.  A protocol-less input
such as `example.com/page` has no `:` and throws. -/
def parsesAsUrl (url : String) : Bool :=
  match url.toList with
  | [] => false
  | c :: rest => c.isAlpha && schemeScan rest

/-- One stored mapping: the `ShortenedUrl` interface of `lib/db`.
The `ownerEmail` field is modelled from the spec's data model (§3
`ownerEmail`: identity of the authenticated creator); the owner-aware
`lib/db` revision is not among the sources, only its callers are.
`created_at` is a logical clock tick standing for the ISO timestamp. -/
structure ShortenedUrl where
  id : Nat
  original_url : String
  short_code : String
  created_at : Nat
  clicks : Nat
  ownerEmail : String
deriving DecidableEq

/-- The in-memory backend's module state: `inMemoryUrls` (newest first,
records are unshifted), `nextId`, and a clock for `created_at`. -/
structure Store where
  urls : List ShortenedUrl
  nextId : Nat
  now : Nat
deriving DecidableEq

/-- `normalizeUrl` from `lib/db`: trim, keep the string when it already
starts with `http://` or `https://`, otherwise prepend `https://`. -/
def normalizeUrl (url : String) : String :=
  let trimmed := jsTrim url
  if jsStartsWith trimmed "http://" || jsStartsWith trimmed "https://" then trimmed
  else "https://" ++ trimmed

/-- `createShortenedUrl` (in-memory branch): normalize, build the record
with the next id and zero clicks, unshift it onto `inMemoryUrls`. -/
def createShortenedUrl (st : Store) (originalUrl shortCode owner : String) :
    ShortenedUrl × Store :=
  let normalizedUrl := normalizeUrl originalUrl
  let newUrl : ShortenedUrl :=
    ⟨st.nextId, normalizedUrl, shortCode, st.now, 0, owner⟩
  (newUrl, ⟨newUrl :: st.urls, st.nextId + 1, st.now + 1⟩)

/-- `getShortenedUrl` (in-memory branch): first record with the code. -/
def getShortenedUrl (st : Store) (shortCode : String) : Option ShortenedUrl :=
  st.urls.find? (fun url => url.short_code == shortCode)

/-- `shortCodeExists` (in-memory branch): membership of the code. -/
def shortCodeExists (st : Store) (shortCode : String) : Bool :=
  st.urls.any (fun url => url.short_code == shortCode)

/-- `shortCodeExists`, durable branch: `SELECT 1 … LIMIT 1` and test for a
row; the surrounding catch returns `false` when the query throws, which
`queryFails` makes explicit. -/
def shortCodeExistsPg (table : List ShortenedUrl) (shortCode : String)
    (queryFails : Bool) : Bool :=
  if queryFails then false
  else table.any (fun url => url.short_code == shortCode)

/-- Helper for the in-memory `incrementClicks`: `find` returns the first
matching record and `url.clicks++` mutates it in place. -/
def incrementFirst : List ShortenedUrl → String → List ShortenedUrl
  | [], _ => []
  | u :: rest, c =>
      if u.short_code == c then { u with clicks := u.clicks + 1 } :: rest
      else u :: incrementFirst rest c

/-- `incrementClicks` (in-memory branch). -/
def incrementClicks (st : Store) (shortCode : String) : Store :=
  { st with urls := incrementFirst st.urls shortCode }

/-- `incrementClicks`, durable branch: `UPDATE … SET clicks = clicks + 1`;
its catch only logs, so a failed query returns normally with the table
unchanged — the return type has no error channel, as in the source. -/
def incrementClicksPg (table : List ShortenedUrl) (shortCode : String)
    (queryFails : Bool) : List ShortenedUrl :=
  if queryFails then table
  else table.map (fun u =>
    if u.short_code == shortCode then { u with clicks := u.clicks + 1 } else u)

/-- `createShortenedUrl`, durable branch: the `INSERT` hits the
`short_code VARCHAR(20) UNIQUE NOT NULL` column of the DDL in
`initializeDatabase`, so a duplicate code makes the statement throw
(modelled as `Except.error`); otherwise the row is appended with the next
serial id. -/
def createShortenedUrlPg (st : Store) (originalUrl shortCode owner : String) :
    Except String (ShortenedUrl × Store) :=
  let normalizedUrl := normalizeUrl originalUrl
  if st.urls.any (fun u => u.short_code == shortCode) then
    .error "duplicate key value violates unique constraint"
  else
    let row : ShortenedUrl := ⟨st.nextId, normalizedUrl, shortCode, st.now, 0, owner⟩
    .ok (row, ⟨st.urls ++ [row], st.nextId + 1, st.now + 1⟩)

/-- Modelled from the spec: the owner-filtering `getAllShortenedUrls`
revision called as `getAllShortenedUrls(userEmail, 50)` by the GET route
is not among the sources.  Spec §4.2/§4.4: `listByOwner(owner, limit)`
returns up to `limit` most-recent records owned by that identity,
newest-first (the in-memory list is kept newest-first). -/
def getAllShortenedUrlsByOwner (st : Store) (owner : String) (limit : Nat) :
    List ShortenedUrl :=
  (st.urls.filter (fun u => u.ownerEmail == owner)).take limit

/-- Modelled from the spec: `deleteShortenedUrlByUser` is called by the
DELETE route but absent from the sources.  Spec §4.4/§4.2
`deleteByOwnerAndCode(owner, code) -> bool`: delete only if the code
exists and is owned by that identity, reporting whether a record was
deleted. -/
def deleteShortenedUrlByUser (st : Store) (shortCode owner : String) :
    Bool × Store :=
  if st.urls.any (fun u => u.short_code == shortCode && u.ownerEmail == owner) then
    (true,
     { st with urls :=
        st.urls.filter (fun u => !(u.short_code == shortCode && u.ownerEmail == owner)) })
  else (false, st)

/-- A JSON response of the route handlers, status code made explicit by
the constructor. -/
inductive ApiResponse where
  | json400 (error : String)
  | json401 (error : String)
  | json404 (error : String)
  | json500 (error : String)
  | okRecord (record : ShortenedUrl)
  | okList (records : List ShortenedUrl)
  | okSuccess
deriving DecidableEq

/-- HTTP status of a response. -/
def ApiResponse.status : ApiResponse → Nat
  | .json400 _ => 400
  | .json401 _ => 401
  | .json404 _ => 404
  | .json500 _ => 500
  | _ => 200

/-- Everything observable about one run of the POST handler: the response,
the store it leaves behind, and the final value of the handler's
`attempts` counter (how many candidates the generation loop drew). -/
structure PostOutcome where
  response : ApiResponse
  store : Store
  attempts : Nat
deriving DecidableEq

/-- The POST handler's do/while generation loop.  `draws i` is the i-th
`nanoid(8)` draw; `attempts` is the loop counter (incremented once per
iteration, so it indexes the next draw) and `remaining` the iterations
the `attempts < maxAttempts` guard still allows.  Returns the unique code
found, if any, together with the final value of `attempts`. -/
def generateShortCode (ex : String → Bool) (draws : Nat → String) :
    Nat → Nat → Option String × Nat
  | attempts, 0 => (none, attempts)
  | attempts, remaining + 1 =>
      let shortCode := draws attempts
      if ex shortCode then generateShortCode ex draws (attempts + 1) remaining
      else (some shortCode, attempts + 1)

/-- `POST /api/shorten` (in-memory backend), in the source's order:
reject a missing (falsy) url with 400; reject a url `new URL` cannot
parse with 400; run the generation loop with `maxAttempts = 10` and
answer 500 when no unique code was found; only then check the session
identity, answering 401 without it; finally persist and return the
created record. -/
def POST (st : Store) (session : Option String) (url : String)
    (draws : Nat → String) : PostOutcome :=
  if url = "" then ⟨.json400 "URL is required", st, 0⟩
  else if parsesAsUrl url then
    match generateShortCode (shortCodeExists st) draws 0 10 with
    | (none, attempts) => ⟨.json500 "Failed to generate unique short code", st, attempts⟩
    | (some shortCode, attempts) =>
        match session with
        | none => ⟨.json401 "userEmail is required", st, attempts⟩
        | some email =>
            ⟨.okRecord (createShortenedUrl st url shortCode email).1,
             (createShortenedUrl st url shortCode email).2, attempts⟩
  else ⟨.json400 "Invalid URL format", st, 0⟩

/-- `GET /api/shorten` (in-memory backend): 401 without a session
identity, otherwise the caller's records via
`getAllShortenedUrls(userEmail, 50)` (the connection check and
`initializeDatabase` are no-ops for the in-memory backend). -/
def listGET (st : Store) (session : Option String) : ApiResponse :=
  match session with
  | none => .json401 "userEmail is required"
  | some userEmail => .okList (getAllShortenedUrlsByOwner st userEmail 50)

/-- `DELETE /api/shorten`: 401 without a session identity, 400 on a falsy
short code, then `deleteShortenedUrlByUser`; a miss (absent code or
foreign owner alike) answers 404 `Not found or not authorized`. -/
def DELETEshorten (st : Store) (session : Option String) (shortCode : String) :
    ApiResponse × Store :=
  match session with
  | none => (.json401 "userEmail is required", st)
  | some userEmail =>
      if shortCode = "" then (.json400 "shortCode is required", st)
      else
        if (deleteShortenedUrlByUser st shortCode userEmail).1 then
          (.okSuccess, (deleteShortenedUrlByUser st shortCode userEmail).2)
        else
          (.json404 "Not found or not authorized",
           (deleteShortenedUrlByUser st shortCode userEmail).2)

/-- The exception `redirect()` from `next/navigation` throws: an `Error`
whose message is `NEXT_REDIRECT` and whose `digest` carries the target.
The page's own catch block documents this behavior (it tests
`error.message == "NEXT_REDIRECT"` and reads `digest`). -/
structure NextError where
  message : String
  digest : Option String
deriving DecidableEq

/-- The error `redirect(url)` throws. -/
def redirectThrown (url : String) : NextError :=
  ⟨"NEXT_REDIRECT", some ("NEXT_REDIRECT;replace;" ++ url ++ ";307;")⟩

/-- The redirect page's inline protocol fix (no trim, unlike
`normalizeUrl`): prepend `https://` unless the stored URL already starts
with `http://` or `https://`. -/
def ensureProtocol (u : String) : String :=
  if !(jsStartsWith u "http://") && !(jsStartsWith u "https://") then "https://" ++ u
  else u

/-- The try-block of `RedirectPage`.  It always ends in a `redirect()`
call, i.e. a throw: absent code → `redirect("/")` with the mutable
`targetUrl` still at its initial `"/"`; present code → dispatch the click
increment (its rejection is caught by `.catch`, modelled by `incFails`
leaving the store untouched), set `targetUrl` to the protocol-fixed
stored URL, and `redirect(targetUrl + "?from=slinker")`.  Returns the
thrown error, the value of `targetUrl` at the throw, and the store. -/
def redirectPageTry (st : Store) (shortCode : String) (incFails : Bool) :
    NextError × String × Store :=
  match getShortenedUrl st shortCode with
  | none => (redirectThrown "/", "/", st)
  | some urlData =>
      let st1 := if incFails then st else incrementClicks st shortCode
      let targetUrl := ensureProtocol urlData.original_url
      (redirectThrown (targetUrl ++ "?from=slinker"), targetUrl, st1)

/-- `app/[shortCode]/page.tsx`: run the try block; the catch recognizes
the `NEXT_REDIRECT` error by message and digest and re-issues
`redirect(targetUrl, RedirectType.push)` — the current `targetUrl`, which
never carries the `?from=slinker` suffix — and any other error yields
`redirect("/?error")`.  Result: the final redirect target the visitor
gets, and the store. -/
def RedirectPage (st : Store) (shortCode : String) (incFails : Bool) :
    String × Store :=
  let run := redirectPageTry st shortCode incFails
  if run.1.message == "NEXT_REDIRECT" then
    match run.1.digest with
    | some _ => (run.2.1, run.2.2)
    | none => ("/?error", run.2.2)
  else ("/?error", run.2.2)

/-- One POST request, for sequences of creations: the session identity,
the submitted url, and the generator's draws for that request. -/
structure PostRequest where
  session : Option String
  url : String
  draws : Nat → String

/-- Run a sequence of POST requests against the in-memory backend. -/
def runPosts (st : Store) (reqs : List PostRequest) : Store :=
  reqs.foldl (fun s r => (POST s r.session r.url r.draws).store) st

/-- One direct insert against the durable backend. -/
structure PgInsertOp where
  url : String
  code : String
  owner : String

/-- Run a sequence of inserts against the durable backend; a failed
insert (unique-index violation) leaves the table unchanged. -/
def runPgInserts (st : Store) (ops : List PgInsertOp) : Store :=
  ops.foldl (fun s op =>
    match createShortenedUrlPg s op.url op.code op.owner with
    | .ok r => r.2
    | .error _ => s) st

/-- No two stored records share a short code. -/
def codesDistinct (urls : List ShortenedUrl) : Prop :=
  urls.Pairwise (fun a b => a.short_code ≠ b.short_code)

/-- A code the generation loop hands out tested free. -/
theorem generateShortCode_free (ex : String → Bool) (d : Nat → String) :
    ∀ (r a : Nat) (c : String) (n : Nat),
      generateShortCode ex d a r = (some c, n) → ex c = false := by
  intro r
  induction r with
  | zero =>
      intro a c n h
      simp [generateShortCode] at h
  | succ r ih =>
      intro a c n h
      rw [generateShortCode] at h
      by_cases hex : ex (d a) = true
      · rw [if_pos hex] at h
        exact ih _ _ _ h
      · rw [if_neg hex] at h
        obtain ⟨hc, -⟩ := Prod.mk.injEq .. ▸ h
        obtain rfl : d a = c := Option.some.injEq .. ▸ hc
        exact Bool.not_eq_true _ ▸ hex

/-- When the loop succeeds it has made at least one attempt. -/
theorem generateShortCode_attempts (ex : String → Bool) (d : Nat → String) :
    ∀ (r a : Nat) (c : String) (n : Nat),
      generateShortCode ex d a r = (some c, n) → a + 1 ≤ n := by
  intro r
  induction r with
  | zero =>
      intro a c n h
      simp [generateShortCode] at h
  | succ r ih =>
      intro a c n h
      rw [generateShortCode] at h
      by_cases hex : ex (d a) = true
      · rw [if_pos hex] at h
        have := ih _ _ _ h
        omega
      · rw [if_neg hex] at h
        obtain ⟨-, hn⟩ := Prod.mk.injEq .. ▸ h
        omega

/-- When every candidate the loop can draw collides, it exhausts its
budget: no code, and the `attempts` counter at the budget. -/
theorem generateShortCode_exhausted (ex : String → Bool) (d : Nat → String) :
    ∀ (r a : Nat), (∀ i, a ≤ i → i < a + r → ex (d i) = true) →
      generateShortCode ex d a r = (none, a + r) := by
  intro r
  induction r with
  | zero => intro a _; rfl
  | succ r ih =>
      intro a h
      rw [generateShortCode, if_pos (h a (Nat.le_refl a) (by omega))]
      have h' : ∀ i, a + 1 ≤ i → i < a + 1 + r → ex (d i) = true := by
        intro i h1 h2
        exact h i (by omega) (by omega)
      rw [ih (a + 1) h']
      have : a + 1 + r = a + (r + 1) := by omega
      rw [this]

/-- Claim C1: when POST /shorten succeeds with short code `c`, a
subsequent `getShortenedUrl` lookup of `c` returns a record whose
`originalUrl` is the normalization of the submitted url. -/
theorem post_create_lookup_roundtrip (st : Store) (session : Option String)
    (url : String) (draws : Nat → String) (r : ShortenedUrl) (st' : Store) (n : Nat)
    (hok : POST st session url draws = ⟨.okRecord r, st', n⟩) :
    getShortenedUrl st' r.short_code = some r ∧
    r.original_url = normalizeUrl url := by
  unfold POST at hok
  split at hok
  · simp at hok
  · split at hok
    · split at hok
      · simp at hok
      · split at hok
        · simp at hok
        · rw [PostOutcome.mk.injEq] at hok
          obtain ⟨h1, h2, -⟩ := hok
          rw [ApiResponse.okRecord.injEq] at h1
          subst h1; subst h2
          constructor
          · simp [getShortenedUrl, createShortenedUrl]
          · rfl
    · simp at hok

/-- Witness for C1: the round trip evaluated on a fresh store. -/
theorem post_create_lookup_roundtrip_witness :
    getShortenedUrl ⟨[⟨1, "https://example.com", "abcd1234", 0, 0, "a@b.c"⟩], 2, 1⟩
        (ShortenedUrl.mk 1 "https://example.com" "abcd1234" 0 0 "a@b.c").short_code =
      some ⟨1, "https://example.com", "abcd1234", 0, 0, "a@b.c"⟩ ∧
    (ShortenedUrl.mk 1 "https://example.com" "abcd1234" 0 0 "a@b.c").original_url =
      normalizeUrl "https://example.com" :=
  post_create_lookup_roundtrip ⟨[], 1, 0⟩ (some "a@b.c") "https://example.com"
    (fun _ => "abcd1234") _ _ 1 (by decide)

-- Helpers for C2: every single POST preserves short-code distinctness
-- (the handler probes `shortCodeExists` before inserting), and so does
-- every durable-backend insert (the unique index rejects duplicates).

theorem post_preserves_codesDistinct (st : Store) (s : Option String)
    (u : String) (d : Nat → String) (h : codesDistinct st.urls) :
    codesDistinct (POST st s u d).store.urls := by
  unfold POST
  split
  · exact h
  · split
    · split
      · exact h
      · split
        · exact h
        · rename_i shortCode attempts heq email heq2
          unfold codesDistinct at h ⊢
          simp only [createShortenedUrl]
          rw [List.pairwise_cons]
          refine ⟨?_, h⟩
          intro b hb
          have hfree : shortCodeExists st shortCode = false :=
            generateShortCode_free _ _ _ _ _ _ heq
          unfold shortCodeExists at hfree
          rw [List.any_eq_false] at hfree
          have := hfree b hb
          simp only [beq_iff_eq] at this
          simp only
          intro hcontra
          exact this hcontra.symm
    · exact h

theorem pgInsert_preserves_codesDistinct (st : Store) (op : PgInsertOp)
    (h : codesDistinct st.urls) :
    codesDistinct (match createShortenedUrlPg st op.url op.code op.owner with
      | .ok r => r.2
      | .error _ => st).urls := by
  unfold createShortenedUrlPg
  split
  · rename_i heq
    split at heq
    · simp at heq
    · rename_i hany
      rw [Except.ok.injEq] at heq
      subst heq
      unfold codesDistinct at h ⊢
      rw [List.pairwise_append]
      refine ⟨h, List.pairwise_singleton _ _, ?_⟩
      intro x hx y hy
      rw [List.mem_singleton] at hy
      subst hy
      rw [Bool.not_eq_true, List.any_eq_false] at hany
      have := hany x hx
      simp only [beq_iff_eq] at this
      simpa using this
  · exact h

theorem runPosts_codesDistinct (st : Store) (reqs : List PostRequest)
    (h : codesDistinct st.urls) : codesDistinct (runPosts st reqs).urls := by
  induction reqs generalizing st with
  | nil => exact h
  | cons r rest ih =>
      simp only [runPosts, List.foldl_cons]
      exact ih _ (post_preserves_codesDistinct _ _ _ _ h)

theorem runPgInserts_codesDistinct (st : Store) (ops : List PgInsertOp)
    (h : codesDistinct st.urls) : codesDistinct (runPgInserts st ops).urls := by
  induction ops generalizing st with
  | nil => exact h
  | cons op rest ih =>
      simp only [runPgInserts, List.foldl_cons]
      exact ih _ (pgInsert_preserves_codesDistinct _ _ h)

/-- Claim C2: over any sequence of creations against either backend, no
two stored records ever share a short code — the in-memory handler probes
`shortCodeExists` before inserting and the durable insert is rejected by
the unique index. -/
theorem shortCode_uniqueness (st : Store) (reqs : List PostRequest)
    (ops : List PgInsertOp) (h : codesDistinct st.urls) :
    codesDistinct (runPosts st reqs).urls ∧
    codesDistinct (runPgInserts st ops).urls :=
  ⟨runPosts_codesDistinct st reqs h, runPgInserts_codesDistinct st ops h⟩

/-- Witness for C2: both folds evaluated on a fresh store, with the
second creation drawing an already-taken code every time. -/
theorem shortCode_uniqueness_witness :
    codesDistinct (runPosts ⟨[], 1, 0⟩
      [⟨some "a@x", "https://e.com", fun _ => "c1c1c1c1"⟩,
       ⟨some "a@x", "https://f.com", fun _ => "c1c1c1c1"⟩]).urls ∧
    codesDistinct (runPgInserts ⟨[], 1, 0⟩
      [⟨"https://e.com", "c1c1c1c1", "a@x"⟩,
       ⟨"https://f.com", "c1c1c1c1", "a@x"⟩]).urls :=
  shortCode_uniqueness ⟨[], 1, 0⟩ _ _ (by unfold codesDistinct; decide)

/-- Claim C3: when all 10 candidates collide, POST /shorten answers the
500 `Failed to generate unique short code` error and the store is
unchanged — no record is created. -/
theorem post_generation_exhausted (st : Store) (session : Option String)
    (url : String) (draws : Nat → String)
    (hu : url ≠ "") (hv : parsesAsUrl url = true)
    (hc : ∀ i, i < 10 → shortCodeExists st (draws i) = true) :
    POST st session url draws =
      ⟨.json500 "Failed to generate unique short code", st, 10⟩ ∧
    (POST st session url draws).response.status = 500 := by
  have hgen : generateShortCode (shortCodeExists st) draws 0 10 = (none, 10) := by
    have := generateShortCode_exhausted (shortCodeExists st) draws 10 0
      (fun i _ h2 => hc i (by omega))
    simpa using this
  have hpost : POST st session url draws =
      ⟨.json500 "Failed to generate unique short code", st, 10⟩ := by
    unfold POST
    rw [if_neg hu, if_pos hv, hgen]
  exact ⟨hpost, by rw [hpost]; rfl⟩

/-- Witness for C3: a store holding `cccccccc` with a generator that
always draws `cccccccc`. -/
theorem post_generation_exhausted_witness :
    POST ⟨[⟨1, "https://e.com", "cccccccc", 0, 0, "a@x"⟩], 2, 1⟩ (some "a@x")
        "https://example.com" (fun _ => "cccccccc") =
      ⟨.json500 "Failed to generate unique short code",
       ⟨[⟨1, "https://e.com", "cccccccc", 0, 0, "a@x"⟩], 2, 1⟩, 10⟩ ∧
    (POST ⟨[⟨1, "https://e.com", "cccccccc", 0, 0, "a@x"⟩], 2, 1⟩ (some "a@x")
        "https://example.com" (fun _ => "cccccccc")).response.status = 500 :=
  post_generation_exhausted _ _ _ _ (by decide) (by decide) (by decide)

/-- Claim C4 counterexample: for a present code the claim demands a
redirect to the stored URL with the referrer marker appended, but the
page's catch intercepts the `NEXT_REDIRECT` throw of
`redirect(targetUrl + "?from=slinker")` and re-issues
`redirect(targetUrl)`, so the final redirect target is the stored URL
without the marker. -/
theorem redirect_marker_dropped_cex :
    (RedirectPage ⟨[⟨1, "https://example.com", "abc12345", 0, 0, "a@x"⟩], 2, 1⟩
        "abc12345" false).1 = "https://example.com" ∧
    ((RedirectPage ⟨[⟨1, "https://example.com", "abc12345", 0, 0, "a@x"⟩], 2, 1⟩
        "abc12345" false).1 == "https://example.com?from=slinker") = false := by
  decide

/-- Claim C4 as amended: an absent code redirects to the home location
with no error surfaced; a present code redirects to the stored URL with
the secure protocol prepended when missing — the referrer marker of the
initial redirect call is lost in the catch's re-issued redirect. -/
theorem redirect_page_resolution (st : Store) (c : String) (inc : Bool) :
    (getShortenedUrl st c = none → RedirectPage st c inc = ("/", st)) ∧
    (∀ r, getShortenedUrl st c = some r →
      (RedirectPage st c inc).1 = ensureProtocol r.original_url) := by
  constructor
  · intro h
    simp [RedirectPage, redirectPageTry, redirectThrown, h]
  · intro r h
    simp [RedirectPage, redirectPageTry, redirectThrown, h]

/-- Witness for C4 (amended): both branches evaluated — an unknown code
goes home, a known protocol-less stored URL gets `https://` prepended. -/
theorem redirect_page_resolution_witness :
    RedirectPage ⟨[⟨1, "example.com", "abc12345", 0, 0, "a@x"⟩], 2, 1⟩ "zzzzzzzz" false =
      ("/", ⟨[⟨1, "example.com", "abc12345", 0, 0, "a@x"⟩], 2, 1⟩) ∧
    (RedirectPage ⟨[⟨1, "example.com", "abc12345", 0, 0, "a@x"⟩], 2, 1⟩ "abc12345" false).1 =
      ensureProtocol (ShortenedUrl.mk 1 "example.com" "abc12345" 0 0 "a@x").original_url :=
  ⟨(redirect_page_resolution ⟨[⟨1, "example.com", "abc12345", 0, 0, "a@x"⟩], 2, 1⟩
      "zzzzzzzz" false).1 (by decide),
   (redirect_page_resolution ⟨[⟨1, "example.com", "abc12345", 0, 0, "a@x"⟩], 2, 1⟩
      "abc12345" false).2 _ (by decide)⟩

/-- Claim C5: the click increment never blocks, fails or alters the
redirect — the final redirect target is the same whether the dispatched
increment fails or succeeds, the page never falls into its `/?error`
branch (the target is always the try-block's `targetUrl`), and the
durable increment's catch swallows a failed query, returning normally
with the table unchanged. -/
theorem clicks_never_affect_redirect :
    (∀ (st : Store) (c : String) (fail : Bool),
      (RedirectPage st c fail).1 = (RedirectPage st c false).1) ∧
    (∀ (st : Store) (c : String) (fail : Bool),
      (RedirectPage st c fail).1 = (redirectPageTry st c fail).2.1) ∧
    (∀ (table : List ShortenedUrl) (code : String),
      incrementClicksPg table code true = table) := by
  refine ⟨?_, ?_, ?_⟩
  · intro st c fail
    cases h : getShortenedUrl st c <;>
      simp [RedirectPage, redirectPageTry, redirectThrown, h]
  · intro st c fail
    cases h : getShortenedUrl st c <;>
      simp [RedirectPage, redirectPageTry, redirectThrown, h]
  · intro table code
    rfl

/-- Claim C6 counterexample: the protocol-less `example.com/page` does
not pass `new URL` validation, so POST /shorten rejects it with 400 and
stores nothing — the creation the claim asserts never succeeds. -/
theorem protocolless_url_rejected_cex :
    (POST ⟨[], 1, 0⟩ (some "a@b.c") "example.com/page"
        (fun _ => "abcd1234")).response = .json400 "Invalid URL format" ∧
    (POST ⟨[], 1, 0⟩ (some "a@b.c") "example.com/page"
        (fun _ => "abcd1234")).store.urls = [] := by
  decide

/-- Claim C6 as amended: submitting `example.com/page` is rejected with
400 `Invalid URL format` before normalization and leaves the store
untouched; `normalizeUrl` itself would map it to
`https://example.com/page`, but the handler's validation precedes it. -/
theorem protocolless_url_rejected (st : Store) (session : Option String)
    (draws : Nat → String) :
    POST st session "example.com/page" draws =
      ⟨.json400 "Invalid URL format", st, 0⟩ ∧
    normalizeUrl "example.com/page" = "https://example.com/page" := by
  constructor
  · unfold POST
    rw [if_neg (by decide), if_neg (by decide)]
  · decide

/-- Claim C7: GET /shorten without a session identity answers 401; with
one it returns the caller's records — at most 50, every one owned by the
caller, ordered newest-first (given a newest-first store). -/
theorem list_owner_scoped (st : Store)
    (hsorted : st.urls.Pairwise (fun a b => b.created_at ≤ a.created_at)) :
    listGET st none = .json401 "userEmail is required" ∧
    ∀ email, listGET st (some email) = .okList (getAllShortenedUrlsByOwner st email 50) ∧
      (getAllShortenedUrlsByOwner st email 50).length ≤ 50 ∧
      (∀ r ∈ getAllShortenedUrlsByOwner st email 50, r.ownerEmail = email) ∧
      (getAllShortenedUrlsByOwner st email 50).Pairwise
        (fun a b => b.created_at ≤ a.created_at) := by
  refine ⟨rfl, fun email => ⟨rfl, ?_, ?_, ?_⟩⟩
  · exact List.length_take_le _ _
  · intro r hr
    have h1 : r ∈ st.urls.filter (fun u => u.ownerEmail == email) :=
      List.mem_of_mem_take hr
    have h2 := List.mem_filter.mp h1
    simpa using h2.2
  · exact ((hsorted.filter _).sublist (List.take_sublist _ _))

/-- Witness for C7: evaluated on a two-owner, newest-first store. -/
theorem list_owner_scoped_witness :
    listGET ⟨[⟨2, "https://b.com", "bbbbbbbb", 5, 0, "a@x"⟩,
              ⟨1, "https://a.com", "aaaaaaaa", 3, 0, "b@x"⟩], 3, 6⟩ none =
      .json401 "userEmail is required" ∧
    listGET ⟨[⟨2, "https://b.com", "bbbbbbbb", 5, 0, "a@x"⟩,
              ⟨1, "https://a.com", "aaaaaaaa", 3, 0, "b@x"⟩], 3, 6⟩ (some "a@x") =
      .okList (getAllShortenedUrlsByOwner
        ⟨[⟨2, "https://b.com", "bbbbbbbb", 5, 0, "a@x"⟩,
          ⟨1, "https://a.com", "aaaaaaaa", 3, 0, "b@x"⟩], 3, 6⟩ "a@x" 50) :=
  ⟨(list_owner_scoped _ (by decide)).1,
   ((list_owner_scoped _ (by decide)).2 "a@x").1⟩

/-- Claim C8: deleting a record owned by user `a` while authenticated as
`b ≠ a` answers the 404 `Not found or not authorized` error, leaves the
store unchanged with the record still present, and the response is the
very same as for a short code that does not exist at all. -/
theorem delete_foreign_owner (st : Store) (r : ShortenedUrl) (a b c : String)
    (hmem : r ∈ st.urls) (hcode : r.short_code = c) (howner : r.ownerEmail = a)
    (hab : a ≠ b) (hc : c ≠ "") (hdist : codesDistinct st.urls) :
    (DELETEshorten st (some b) c).1 = .json404 "Not found or not authorized" ∧
    (DELETEshorten st (some b) c).2 = st ∧
    r ∈ (DELETEshorten st (some b) c).2.urls ∧
    (∀ c', c' ≠ "" → (∀ u ∈ st.urls, u.short_code ≠ c') →
      (DELETEshorten st (some b) c').1 = (DELETEshorten st (some b) c).1) := by
  have hany : st.urls.any (fun u => u.short_code == c && u.ownerEmail == b) = false := by
    rw [List.any_eq_false]
    intro u hu
    simp only [Bool.and_eq_true, beq_iff_eq, not_and]
    intro huc
    by_cases hur : u = r
    · subst hur
      rw [howner]
      exact hab
    · have hsymm : Symmetric (fun x y : ShortenedUrl => x.short_code ≠ y.short_code) :=
        fun x y hxy h => hxy h.symm
      have hne := (List.Pairwise.forall hsymm hdist) hu hmem hur
      exact (hne (by rw [huc, hcode])).elim
  have hdel : deleteShortenedUrlByUser st c b = (false, st) := by
    unfold deleteShortenedUrlByUser
    rw [if_neg (by simp [hany])]
  have h404 : DELETEshorten st (some b) c =
      (.json404 "Not found or not authorized", st) := by
    simp [DELETEshorten, hdel, hc]
  refine ⟨by rw [h404], by rw [h404], by rw [h404]; exact hmem, ?_⟩
  intro c' hc' habsent
  have hany' : st.urls.any (fun u => u.short_code == c' && u.ownerEmail == b) = false := by
    rw [List.any_eq_false]
    intro u hu
    simp only [Bool.and_eq_true, beq_iff_eq, not_and]
    intro huc
    exact absurd huc (habsent u hu)
  have hdel' : deleteShortenedUrlByUser st c' b = (false, st) := by
    unfold deleteShortenedUrlByUser
    rw [if_neg (by simp [hany'])]
  have h404' : DELETEshorten st (some b) c' =
      (.json404 "Not found or not authorized", st) := by
    simp [DELETEshorten, hdel', hc']
  rw [h404, h404']

/-- Witness for C8: user `b@x` attempts to delete `a@x`'s record. -/
theorem delete_foreign_owner_witness :
    (DELETEshorten ⟨[⟨1, "https://e.com", "code0001", 0, 0, "a@x"⟩], 2, 1⟩
        (some "b@x") "code0001").1 = .json404 "Not found or not authorized" ∧
    (DELETEshorten ⟨[⟨1, "https://e.com", "code0001", 0, 0, "a@x"⟩], 2, 1⟩
        (some "b@x") "code0001").2 =
      ⟨[⟨1, "https://e.com", "code0001", 0, 0, "a@x"⟩], 2, 1⟩ :=
  ⟨(delete_foreign_owner _ ⟨1, "https://e.com", "code0001", 0, 0, "a@x"⟩ "a@x" "b@x"
      "code0001" (by decide) rfl rfl (by decide) (by decide)
      (by unfold codesDistinct; decide)).1,
   (delete_foreign_owner _ ⟨1, "https://e.com", "code0001", 0, 0, "a@x"⟩ "a@x" "b@x"
      "code0001" (by decide) rfl rfl (by decide) (by decide)
      (by unfold codesDistinct; decide)).2.1⟩

/-- Claim C9 counterexample: the unauthenticated valid-URL request is
answered 401 with nothing stored, but the outcome's `attempts` counter
is 1, not 0 — the generation loop drew and probed a candidate before the
auth check, refuting `rejects ... before any short-code generation`. -/
theorem post_auth_checked_after_generation_cex :
    POST ⟨[], 1, 0⟩ none "https://example.com" (fun _ => "abcd1234") =
      ⟨.json401 "userEmail is required", ⟨[], 1, 0⟩, 1⟩ := by
  decide

/-- Claim C9 as amended: a valid-URL request without a session is
rejected with 401 and no record is created, but only after the
generation loop has run — at least one candidate was drawn and probed. -/
theorem post_unauth_after_generation (st : Store) (url : String)
    (draws : Nat → String) (c : String) (n : Nat)
    (hu : url ≠ "") (hv : parsesAsUrl url = true)
    (hgen : generateShortCode (shortCodeExists st) draws 0 10 = (some c, n)) :
    POST st none url draws = ⟨.json401 "userEmail is required", st, n⟩ ∧ 1 ≤ n := by
  constructor
  · unfold POST
    rw [if_neg hu, if_pos hv, hgen]
  · exact generateShortCode_attempts _ _ _ _ _ _ hgen

/-- Witness for C9 (amended): evaluated on a fresh store. -/
theorem post_unauth_after_generation_witness :
    POST ⟨[], 1, 0⟩ none "https://example.com" (fun _ => "abcd1234") =
      ⟨.json401 "userEmail is required", ⟨[], 1, 0⟩, 1⟩ ∧ 1 ≤ 1 :=
  post_unauth_after_generation ⟨[], 1, 0⟩ "https://example.com" (fun _ => "abcd1234")
    "abcd1234" 1 (by decide) (by decide) (by decide)

/-- Claim C10: in the durable backend a thrown uniqueness-probe query is
swallowed by the catch and reported as `false` — the candidate appears
free — for every table and candidate. -/
theorem probe_error_reports_free :
    ∀ (table : List ShortenedUrl) (code : String),
      shortCodeExistsPg table code true = false :=
  fun _ _ => rfl

end Slinker


